import Mathlib

/-!
Verification of the A/B-test significance notebook against its specification.

The notebook (src/A-B Testing/notebook.ipynb) computes a two-proportion
z-test in the function `get_pvalue`, after a validation cell and a group
extraction cell.  We embed the relevant cells over the reals, with Python
failure modes made explicit via `Except` and scipy NaN results via
`Option` (`none` stands for NaN).
-/

open MeasureTheory Real

open scoped Classical

/-- Error vocabulary.  `zeroDivisionError` and `keyError` are errors the
Python source can actually raise; `valueError` models a failed tuple
unpacking.  `invalidInput` and `degenerateDistribution` are the error
kinds named by the specification (section 7); they appear here so that
claims about them can be stated, but no embedded function produces them. -/
inductive PyErr where
  | zeroDivisionError
  | keyError
  | valueError
  | invalidInput
  | degenerateDistribution
deriving DecidableEq

/-- Python true division: raises ZeroDivisionError on a zero divisor
(as it does for both int and float operands). -/
noncomputable def pydiv (a b : ℝ) : Except PyErr ℝ :=
  if b = 0 then .error .zeroDivisionError else .ok (a / b)

/-- Density of the standard normal distribution. -/
noncomputable def gaussPdf (t : ℝ) : ℝ :=
  Real.exp (-(1 / 2) * t ^ 2) / Real.sqrt (2 * Real.pi)

/-- Cumulative distribution function of the standard normal distribution. -/
noncomputable def stdNormalCdf (x : ℝ) : ℝ :=
  ∫ t in Set.Iic x, gaussPdf t

/-- Model of `scipy.stats.norm.cdf(x, loc, scale)`: the location-scale
normal CDF for a positive scale; scipy returns NaN (here `none`) when the
scale parameter is not positive. -/
noncomputable def scipy_norm_cdf (x loc scale : ℝ) : Option ℝ :=
  if 0 < scale then some (stdNormalCdf ((x - loc) / scale)) else none

/-- Python comparison `p >= c` where `p` may be NaN (`none`):
any comparison with NaN is false. -/
def pyGe (p : Option ℝ) (c : ℝ) : Prop :=
  match p with
  | none => False
  | some v => c ≤ v

/-- Embedding of the notebook function

    def get_pvalue(con_conv, test_conv, con_size, test_size):
        lift = -abs(test_conv - con_conv)
        scale_one = con_conv * (1 - con_conv) * (1 / con_size)
        scale_two = test_conv * (1 - test_conv) * (1 / test_size)
        scale_val = (scale_one + scale_two) ** 0.5
        p_value = 2 * stats.norm.cdf(lift, loc=0, scale=scale_val)
        if p_value >= 0.05:
            msg = "Not Significant"
        else:
            msg = "Significant Result"
        return p_value, msg

The two divisions are Python divisions (they raise on a zero size), the
CDF call is the scipy model above (NaN for a non-positive scale, and
`2 * NaN = NaN`), and the comparison with 0.05 follows Python NaN
semantics. -/
noncomputable def get_pvalue (con_conv test_conv con_size test_size : ℝ) :
    Except PyErr (Option ℝ × String) := do
  let lift := -|test_conv - con_conv|
  let inv_con ← pydiv 1 con_size
  let inv_test ← pydiv 1 test_size
  let scale_one := con_conv * (1 - con_conv) * inv_con
  let scale_two := test_conv * (1 - test_conv) * inv_test
  let scale_val := (scale_one + scale_two) ^ (0.5 : ℝ)
  let p_value := (scipy_norm_cdf lift 0 scale_val).map (fun c => 2 * c)
  let msg := if pyGe p_value 0.05 then "Not Significant" else "Significant Result"
  return (p_value, msg)

/-- First component (the p-value, `none` for NaN or an error) of a
`get_pvalue` result. -/
def pvalue_fst (r : Except PyErr (Option ℝ × String)) : Option ℝ :=
  match r with
  | .ok (p, _) => p
  | .error _ => none

/-- Modelled from the spec: `lift = -|rate_test - rate_control|`
(section 4.1, step 1). -/
noncomputable def lift_spec (rate_control rate_test : ℝ) : ℝ :=
  -|rate_test - rate_control|

/-- Modelled from the spec: per-group variance term
`rate * (1 - rate) / size` (section 4.1, steps 2 and 3). -/
noncomputable def scale_spec (rate size : ℝ) : ℝ :=
  rate * (1 - rate) / size

/-- Modelled from the spec:
`standard_error = sqrt(scale_control + scale_test)` (section 4.1, step 4). -/
noncomputable def standard_error (rate_control rate_test size_control size_test : ℝ) : ℝ :=
  Real.sqrt (scale_spec rate_control size_control + scale_spec rate_test size_test)

/-- Modelled from the spec:
`p_value = 2 * Phi(lift; mean=0, scale=standard_error)` where `Phi` is the
standard normal CDF with the given scale (section 4.1, step 5). -/
noncomputable def p_value_spec (rate_control rate_test size_control size_test : ℝ) : ℝ :=
  2 * stdNormalCdf ((lift_spec rate_control rate_test - 0) /
    standard_error rate_control rate_test size_control size_test)

/-! ### Analytic facts about the standard normal CDF -/

theorem gaussPdf_pos (t : ℝ) : 0 < gaussPdf t :=
  div_pos (Real.exp_pos _) (Real.sqrt_pos.mpr (by positivity))

theorem gaussPdf_integrable : Integrable gaussPdf := by
  have h := integrable_exp_neg_mul_sq (b := 1 / 2) (by norm_num)
  exact h.div_const _

theorem gaussPdf_integral_eq_one : ∫ t : ℝ, gaussPdf t = 1 := by
  unfold gaussPdf
  rw [integral_div, integral_gaussian]
  rw [show Real.pi / (1 / 2) = 2 * Real.pi by ring]
  exact div_self (Real.sqrt_ne_zero'.mpr (by positivity))

theorem stdNormalCdf_nonneg (x : ℝ) : 0 ≤ stdNormalCdf x :=
  setIntegral_nonneg measurableSet_Iic (fun t _ => (gaussPdf_pos t).le)

theorem stdNormalCdf_mono : Monotone stdNormalCdf := by
  intro a b hab
  exact setIntegral_mono_set gaussPdf_integrable.integrableOn
    (Filter.Eventually.of_forall fun t => (gaussPdf_pos t).le)
    ((Set.Iic_subset_Iic.mpr hab).eventuallyLE)

theorem stdNormalCdf_le_one (x : ℝ) : stdNormalCdf x ≤ 1 := by
  have h : stdNormalCdf x ≤ ∫ t in Set.univ, gaussPdf t := by
    exact setIntegral_mono_set gaussPdf_integrable.integrableOn
      (Filter.Eventually.of_forall fun t => (gaussPdf_pos t).le)
      ((Set.subset_univ _).eventuallyLE)
  rw [MeasureTheory.setIntegral_univ, gaussPdf_integral_eq_one] at h
  exact h

theorem stdNormalCdf_zero : stdNormalCdf 0 = 1 / 2 := by
  have hrefl : stdNormalCdf 0 = ∫ t in Set.Ioi (0 : ℝ), gaussPdf t := by
    rw [stdNormalCdf]
    have h := integral_comp_neg_Iic (0 : ℝ) gaussPdf
    rw [neg_zero] at h
    rw [← h]
    congr 1
    funext t
    simp [gaussPdf, neg_sq]
  have hsplit : stdNormalCdf 0 + ∫ t in Set.Ioi (0 : ℝ), gaussPdf t = 1 := by
    rw [stdNormalCdf]
    have h := MeasureTheory.integral_add_compl (measurableSet_Iic (a := (0 : ℝ)))
      gaussPdf_integrable
    rw [Set.compl_Iic] at h
    rw [h, gaussPdf_integral_eq_one]
  rw [← hrefl] at hsplit
  linarith

theorem stdNormalCdf_strictMono : StrictMono stdNormalCdf := by
  intro a b hab
  have hsub : Set.Iic b = Set.Iic a ∪ Set.Ioc a b :=
    (Set.Iic_union_Ioc_eq_Iic hab.le).symm
  have hdisj : Disjoint (Set.Iic a) (Set.Ioc a b) := Set.Iic_disjoint_Ioc le_rfl
  have hsum : stdNormalCdf b = stdNormalCdf a + ∫ t in Set.Ioc a b, gaussPdf t := by
    rw [stdNormalCdf, stdNormalCdf, hsub]
    exact MeasureTheory.setIntegral_union hdisj measurableSet_Ioc
      gaussPdf_integrable.integrableOn gaussPdf_integrable.integrableOn
  have hpos : 0 < ∫ t in Set.Ioc a b, gaussPdf t := by
    rw [setIntegral_pos_iff_support_of_nonneg_ae
      (Filter.Eventually.of_forall fun t => (gaussPdf_pos t).le)
      gaussPdf_integrable.integrableOn]
    have hsupp : Function.support gaussPdf = Set.univ := by
      ext t
      simp [Function.mem_support, (gaussPdf_pos t).ne']
    rw [hsupp, Set.univ_inter, Real.volume_Ioc]
    exact ENNReal.ofReal_pos.mpr (by linarith)
  linarith [hsum, hpos]

theorem stdNormalCdf_le_half_of_nonpos {x : ℝ} (hx : x ≤ 0) :
    stdNormalCdf x ≤ 1 / 2 := by
  have := stdNormalCdf_mono hx
  rwa [stdNormalCdf_zero] at this

/-! ### Evaluation lemmas for `get_pvalue` -/

theorem get_pvalue_run (rc rt sc st : ℝ) (hsc : sc ≠ 0) (hst : st ≠ 0)
    (hv : 0 < rc * (1 - rc) * (1 / sc) + rt * (1 - rt) * (1 / st)) :
    get_pvalue rc rt sc st =
      Except.ok (some (2 * stdNormalCdf (-|rt - rc| /
          Real.sqrt (rc * (1 - rc) * (1 / sc) + rt * (1 - rt) * (1 / st)))),
        if (0.05 : ℝ) ≤ 2 * stdNormalCdf (-|rt - rc| /
            Real.sqrt (rc * (1 - rc) * (1 / sc) + rt * (1 - rt) * (1 / st)))
        then "Not Significant" else "Significant Result") := by
  rw [get_pvalue, pydiv, pydiv, if_neg hsc, if_neg hst]
  show Except.ok _ = _
  rw [show ((0.5 : ℝ)) = 1 / 2 by norm_num, ← Real.sqrt_eq_rpow]
  rw [scipy_norm_cdf, if_pos (Real.sqrt_pos.mpr hv)]
  rw [sub_zero, Option.map_some']
  simp only [pyGe]

theorem get_pvalue_degenerate (rc rt sc st : ℝ) (hsc : sc ≠ 0) (hst : st ≠ 0)
    (hv : rc * (1 - rc) * (1 / sc) + rt * (1 - rt) * (1 / st) = 0) :
    get_pvalue rc rt sc st = Except.ok (none, "Significant Result") := by
  rw [get_pvalue, pydiv, pydiv, if_neg hsc, if_neg hst]
  show Except.ok _ = _
  rw [hv, show ((0.5 : ℝ)) = 1 / 2 by norm_num, ← Real.sqrt_eq_rpow, Real.sqrt_zero]
  rw [scipy_norm_cdf, if_neg (lt_irrefl 0), Option.map_none']
  simp only [pyGe, if_neg not_false]

theorem get_pvalue_zero_size (rc rt sc st : ℝ) (h : sc = 0 ∨ st = 0) :
    get_pvalue rc rt sc st = Except.error PyErr.zeroDivisionError := by
  by_cases hsc : sc = 0
  · rw [get_pvalue, pydiv, if_pos hsc]
    rfl
  · rcases h with h | h
    · exact absurd h hsc
    · rw [get_pvalue, pydiv, pydiv, if_neg hsc, if_pos h]
      rfl

theorem standard_error_eq (rc rt sc st : ℝ) :
    standard_error rc rt sc st =
      Real.sqrt (rc * (1 - rc) * (1 / sc) + rt * (1 - rt) * (1 / st)) := by
  rw [standard_error, scale_spec, scale_spec, mul_one_div, mul_one_div]

/-! ### Claims about `get_pvalue` -/

/-- C1: for inputs with positive sizes (and a nonzero pooled standard
error, without which the CDF at scale `standard_error` is undefined and
scipy returns NaN), `get_pvalue` computes `lift = -|rate_test -
rate_control|`, per-group variance terms `rate*(1-rate)/size`, pooled
standard error `sqrt(scale_control + scale_test)`, and
`p_value = 2 * Phi(lift; mean=0, scale=standard_error)`. -/
theorem claim_C1_formula (rc rt sc st : ℝ) (hsc : 0 < sc) (hst : 0 < st)
    (hse : standard_error rc rt sc st ≠ 0) :
    ∃ msg, get_pvalue rc rt sc st = Except.ok (some (p_value_spec rc rt sc st), msg) := by
  have hv : 0 < rc * (1 - rc) * (1 / sc) + rt * (1 - rt) * (1 / st) :=
    Real.sqrt_ne_zero'.mp (by rwa [standard_error_eq] at hse)
  have hP : 2 * stdNormalCdf (-|rt - rc| /
      Real.sqrt (rc * (1 - rc) * (1 / sc) + rt * (1 - rt) * (1 / st))) =
      p_value_spec rc rt sc st := by
    rw [p_value_spec, lift_spec, standard_error_eq, sub_zero]
  refine ⟨if (0.05 : ℝ) ≤ p_value_spec rc rt sc st
    then "Not Significant" else "Significant Result", ?_⟩
  rw [get_pvalue_run rc rt sc st hsc.ne' hst.ne' hv, hP]

/-- Witness for C1 at `rate_control = rate_test = 1/2`, sizes `1`. -/
theorem claim_C1_witness :
    ∃ msg, get_pvalue (1 / 2) (1 / 2) 1 1 =
      Except.ok (some (p_value_spec (1 / 2) (1 / 2) 1 1), msg) :=
  claim_C1_formula (1 / 2) (1 / 2) 1 1 (by norm_num) (by norm_num)
    (by rw [standard_error_eq]; exact Real.sqrt_ne_zero'.mpr (by norm_num))

/-- C2 counterexample: at `size_control = 0` the source raises
ZeroDivisionError from the expression `1 / con_size`; there is no
`InvalidInput` error anywhere in the code. -/
theorem claim_C2_counterexample :
    get_pvalue 0.1 0.2 0 10 = Except.error PyErr.zeroDivisionError ∧
    Except.error (α := Option ℝ × String) PyErr.zeroDivisionError ≠
      Except.error PyErr.invalidInput := by
  refine ⟨get_pvalue_zero_size 0.1 0.2 0 10 (Or.inl rfl), ?_⟩
  intro h
  exact absurd (Except.error.inj h) (by decide)

/-- C2 (amended): a zero group size makes `get_pvalue` fail with
ZeroDivisionError (Python division by zero), not with `InvalidInput`. -/
theorem claim_C2_zero_size (rc rt sc st : ℝ) (h : sc = 0 ∨ st = 0) :
    get_pvalue rc rt sc st = Except.error PyErr.zeroDivisionError :=
  get_pvalue_zero_size rc rt sc st h

/-- Witness for the amended C2 at `size_test = 0`. -/
theorem claim_C2_witness :
    ((7 : ℝ) = 0 ∨ (0 : ℝ) = 0) ∧
      get_pvalue 0.3 0.4 7 0 = Except.error PyErr.zeroDivisionError :=
  ⟨Or.inr rfl, claim_C2_zero_size 0.3 0.4 7 0 (Or.inr rfl)⟩

/-- C3 counterexample: with both rates 0 and sizes 1 the pooled standard
error is zero, and `get_pvalue` does not raise any error: scipy returns
NaN for scale 0, and the NaN p-value compares false against 0.05, so the
verdict is "Significant Result". -/
theorem claim_C3_counterexample :
    get_pvalue 0 0 1 1 = Except.ok (none, "Significant Result") ∧
    Except.ok ((none : Option ℝ), "Significant Result") ≠
      Except.error PyErr.degenerateDistribution := by
  refine ⟨get_pvalue_degenerate 0 0 1 1 one_ne_zero one_ne_zero (by norm_num), ?_⟩
  intro h
  cases h

/-- C3 (amended): for nonzero sizes with zero pooled variance,
`get_pvalue` does not fail: it returns a NaN p-value (`none`) and the
verdict "Significant Result", because scipy yields NaN at scale 0 and
`NaN >= 0.05` is false. -/
theorem claim_C3_degenerate_nan (rc rt sc st : ℝ) (hsc : sc ≠ 0) (hst : st ≠ 0)
    (hv : rc * (1 - rc) * (1 / sc) + rt * (1 - rt) * (1 / st) = 0) :
    get_pvalue rc rt sc st = Except.ok (none, "Significant Result") :=
  get_pvalue_degenerate rc rt sc st hsc hst hv

/-- Witness for the amended C3 with both rates 1. -/
theorem claim_C3_witness :
    get_pvalue 1 1 2 3 = Except.ok (none, "Significant Result") :=
  claim_C3_degenerate_nan 1 1 2 3 two_ne_zero three_ne_zero (by norm_num)

/-- C4: for valid inputs (positive sizes, rates in [0,1], nonzero pooled
standard error), the returned p-value lies in [0,2], and the verdict is
the significant one exactly when p_value < 0.05; at p_value = 0.05 the
non-strict comparison yields "Not Significant". -/
theorem claim_C4_range_verdict (rc rt sc st : ℝ)
    (hrc0 : 0 ≤ rc) (hrc1 : rc ≤ 1) (hrt0 : 0 ≤ rt) (hrt1 : rt ≤ 1)
    (hsc : 0 < sc) (hst : 0 < st) (hse : standard_error rc rt sc st ≠ 0) :
    ∃ p msg, get_pvalue rc rt sc st = Except.ok (some p, msg) ∧
      0 ≤ p ∧ p ≤ 2 ∧ (msg = "Significant Result" ↔ p < 0.05) := by
  have hv : 0 < rc * (1 - rc) * (1 / sc) + rt * (1 - rt) * (1 / st) :=
    Real.sqrt_ne_zero'.mp (by rwa [standard_error_eq] at hse)
  refine ⟨2 * stdNormalCdf (-|rt - rc| /
      Real.sqrt (rc * (1 - rc) * (1 / sc) + rt * (1 - rt) * (1 / st))), _,
    get_pvalue_run rc rt sc st hsc.ne' hst.ne' hv, ?_, ?_, ?_⟩
  · exact mul_nonneg (by norm_num) (stdNormalCdf_nonneg _)
  · have h := stdNormalCdf_le_one (-|rt - rc| /
      Real.sqrt (rc * (1 - rc) * (1 / sc) + rt * (1 - rt) * (1 / st)))
    linarith
  · by_cases h : (0.05 : ℝ) ≤ 2 * stdNormalCdf (-|rt - rc| /
      Real.sqrt (rc * (1 - rc) * (1 / sc) + rt * (1 - rt) * (1 / st)))
    · rw [if_pos h]
      constructor
      · intro hmsg
        exact absurd hmsg (by decide)
      · intro hlt
        exact absurd hlt (not_lt.mpr h)
    · rw [if_neg h]
      exact ⟨fun _ => not_le.mp h, fun _ => rfl⟩

/-- Witness for C4 at rates 1/2, sizes 1. -/
theorem claim_C4_witness :
    ∃ p msg, get_pvalue (1 / 2) (1 / 2) 1 1 = Except.ok (some p, msg) ∧
      0 ≤ p ∧ p ≤ 2 ∧ (msg = "Significant Result" ↔ p < 0.05) :=
  claim_C4_range_verdict (1 / 2) (1 / 2) 1 1 (by norm_num) (by norm_num)
    (by norm_num) (by norm_num) (by norm_num) (by norm_num)
    (by rw [standard_error_eq]; exact Real.sqrt_ne_zero'.mpr (by norm_num))

/-- C5: equal rates in (0,1) with positive sizes give lift 0, p-value
exactly 1, and the verdict "Not Significant". -/
theorem claim_C5_equal_rates (r sc st : ℝ) (hr0 : 0 < r) (hr1 : r < 1)
    (hsc : 0 < sc) (hst : 0 < st) :
    -|r - r| = 0 ∧ get_pvalue r r sc st = Except.ok (some 1, "Not Significant") := by
  have h1r : 0 < 1 - r := by linarith
  have hv : 0 < r * (1 - r) * (1 / sc) + r * (1 - r) * (1 / st) := by
    have ha := mul_pos (mul_pos hr0 h1r) (one_div_pos.mpr hsc)
    have hb := mul_pos (mul_pos hr0 h1r) (one_div_pos.mpr hst)
    linarith
  refine ⟨by simp, ?_⟩
  rw [get_pvalue_run r r sc st hsc.ne' hst.ne' hv]
  rw [sub_self, abs_zero, neg_zero, zero_div, stdNormalCdf_zero]
  norm_num

/-- Witness for C5 at the rate 0.2 named in the spec, sizes 3 and 5. -/
theorem claim_C5_witness :
    -|(0.2 : ℝ) - 0.2| = 0 ∧
      get_pvalue 0.2 0.2 3 5 = Except.ok (some 1, "Not Significant") :=
  claim_C5_equal_rates 0.2 3 5 (by norm_num) (by norm_num) (by norm_num) (by norm_num)

theorem get_pvalue_nonzero (rc rt sc st : ℝ) (hsc : sc ≠ 0) (hst : st ≠ 0) :
    get_pvalue rc rt sc st =
      Except.ok ((scipy_norm_cdf (-|rt - rc|) 0
          ((rc * (1 - rc) * (1 / sc) + rt * (1 - rt) * (1 / st)) ^ (0.5 : ℝ))).map
            (fun c => 2 * c),
        if pyGe ((scipy_norm_cdf (-|rt - rc|) 0
            ((rc * (1 - rc) * (1 / sc) + rt * (1 - rt) * (1 / st)) ^ (0.5 : ℝ))).map
              (fun c => 2 * c)) 0.05
        then "Not Significant" else "Significant Result") := by
  rw [get_pvalue, pydiv, pydiv, if_neg hsc, if_neg hst]
  rfl

/-- C6: swapping the control pair with the test pair leaves the entire
result of `get_pvalue` (in particular the p-value) unchanged; proved here
for all inputs, valid or not. -/
theorem claim_C6_symmetry (a b sa sb : ℝ) :
    get_pvalue a b sa sb = get_pvalue b a sb sa := by
  by_cases hsa : sa = 0
  · rw [get_pvalue_zero_size a b sa sb (Or.inl hsa),
      get_pvalue_zero_size b a sb sa (Or.inr hsa)]
  · by_cases hsb : sb = 0
    · rw [get_pvalue_zero_size a b sa sb (Or.inr hsb),
        get_pvalue_zero_size b a sb sa (Or.inl hsb)]
    · rw [get_pvalue_nonzero a b sa sb hsa hsb, get_pvalue_nonzero b a sb sa hsb hsa]
      rw [abs_sub_comm b a, add_comm (a * (1 - a) * (1 / sa)) (b * (1 - b) * (1 / sb))]

/-- C10: for positive sizes and a nonzero pooled standard error the
p-value lies in [0,1]: the lift is nonpositive, so the CDF value is at
most 1/2 and twice it is at most 1. -/
theorem claim_C10_pvalue_le_one (rc rt sc st : ℝ) (hsc : 0 < sc) (hst : 0 < st)
    (hse : standard_error rc rt sc st ≠ 0) :
    ∃ p msg, get_pvalue rc rt sc st = Except.ok (some p, msg) ∧ 0 ≤ p ∧ p ≤ 1 := by
  have hv : 0 < rc * (1 - rc) * (1 / sc) + rt * (1 - rt) * (1 / st) :=
    Real.sqrt_ne_zero'.mp (by rwa [standard_error_eq] at hse)
  refine ⟨2 * stdNormalCdf (-|rt - rc| /
      Real.sqrt (rc * (1 - rc) * (1 / sc) + rt * (1 - rt) * (1 / st))), _,
    get_pvalue_run rc rt sc st hsc.ne' hst.ne' hv, ?_, ?_⟩
  · exact mul_nonneg (by norm_num) (stdNormalCdf_nonneg _)
  · have hz : -|rt - rc| /
        Real.sqrt (rc * (1 - rc) * (1 / sc) + rt * (1 - rt) * (1 / st)) ≤ 0 := by
      rw [neg_div]
      exact neg_nonpos.mpr (div_nonneg (abs_nonneg _) (Real.sqrt_nonneg _))
    have h := stdNormalCdf_le_half_of_nonpos hz
    linarith

/-- Witness for C10 at rates 0.1 and 0.3, sizes 2 and 5. -/
theorem claim_C10_witness :
    ∃ p msg, get_pvalue 0.1 0.3 2 5 = Except.ok (some p, msg) ∧ 0 ≤ p ∧ p ≤ 1 :=
  claim_C10_pvalue_le_one 0.1 0.3 2 5 (by norm_num) (by norm_num)
    (by rw [standard_error_eq]; exact Real.sqrt_ne_zero'.mpr (by norm_num))

/-- C7 counterexample: with both sizes 1, the input (0.4, 0.6) has a
strictly larger rate difference than (0, 0.1), yet its p-value is
strictly larger, because its pooled standard error is larger as well. -/
theorem claim_C7_counterexample :
    |(0.6 : ℝ) - 0.4| > |(0.1 : ℝ) - 0| ∧
    pvalue_fst (get_pvalue 0 0.1 1 1) = some (2 * stdNormalCdf (-(1 / 3))) ∧
    pvalue_fst (get_pvalue 0.4 0.6 1 1) =
      some (2 * stdNormalCdf (-(0.2 / Real.sqrt 0.48))) ∧
    2 * stdNormalCdf (-(1 / 3)) < 2 * stdNormalCdf (-(0.2 / Real.sqrt 0.48)) := by
  refine ⟨?_, ?_, ?_, ?_⟩
  · rw [show (0.6 : ℝ) - 0.4 = 0.2 by norm_num, show (0.1 : ℝ) - 0 = 0.1 by norm_num,
      abs_of_nonneg (by norm_num : (0 : ℝ) ≤ 0.2),
      abs_of_nonneg (by norm_num : (0 : ℝ) ≤ 0.1)]
    norm_num
  · rw [get_pvalue_run 0 0.1 1 1 one_ne_zero one_ne_zero (by norm_num)]
    show some _ = some _
    rw [show (0 * (1 - 0) * (1 / 1) + 0.1 * (1 - 0.1) * (1 / 1) : ℝ) = (3 / 10) ^ 2
        by norm_num,
      Real.sqrt_sq (by norm_num : (0 : ℝ) ≤ 3 / 10),
      show |(0.1 : ℝ) - 0| = 0.1 by rw [sub_zero]; exact abs_of_nonneg (by norm_num)]
    norm_num
  · rw [get_pvalue_run 0.4 0.6 1 1 one_ne_zero one_ne_zero (by norm_num)]
    show some _ = some _
    rw [show (0.4 * (1 - 0.4) * (1 / 1) + 0.6 * (1 - 0.6) * (1 / 1) : ℝ) = 0.48
        by norm_num,
      show |(0.6 : ℝ) - 0.4| = 0.2
        by rw [show (0.6 : ℝ) - 0.4 = 0.2 by norm_num]; exact abs_of_nonneg (by norm_num),
      neg_div]
  · have hs : (0.6 : ℝ) < Real.sqrt 0.48 :=
      Real.lt_sqrt_of_sq_lt (by norm_num : (0.6 : ℝ) ^ 2 < 0.48)
    have hlt : (0.2 : ℝ) / Real.sqrt 0.48 < 0.2 / 0.6 :=
      div_lt_div_of_pos_left (by norm_num) (by norm_num) hs
    have harg : -(1 / 3 : ℝ) < -(0.2 / Real.sqrt 0.48) := by
      rw [show (0.2 : ℝ) / 0.6 = 1 / 3 by norm_num] at hlt
      linarith
    have := stdNormalCdf_strictMono harg
    linarith

/-- C7 (amended): holding sizes fixed, if the second input has a strictly
larger absolute rate difference and a pooled standard error that is no
larger, then its p-value from `get_pvalue` is not larger. -/
theorem claim_C7_monotone (rc1 rt1 rc2 rt2 sc st : ℝ) (hsc : 0 < sc) (hst : 0 < st)
    (hse1 : standard_error rc1 rt1 sc st ≠ 0)
    (hse2 : standard_error rc2 rt2 sc st ≠ 0)
    (hseLe : standard_error rc2 rt2 sc st ≤ standard_error rc1 rt1 sc st)
    (hdelta : |rt1 - rc1| < |rt2 - rc2|) :
    ∃ p1 p2, pvalue_fst (get_pvalue rc1 rt1 sc st) = some p1 ∧
      pvalue_fst (get_pvalue rc2 rt2 sc st) = some p2 ∧ p2 ≤ p1 := by
  have hv1 : 0 < rc1 * (1 - rc1) * (1 / sc) + rt1 * (1 - rt1) * (1 / st) :=
    Real.sqrt_ne_zero'.mp (by rwa [standard_error_eq] at hse1)
  have hv2 : 0 < rc2 * (1 - rc2) * (1 / sc) + rt2 * (1 - rt2) * (1 / st) :=
    Real.sqrt_ne_zero'.mp (by rwa [standard_error_eq] at hse2)
  have hs1 : 0 < Real.sqrt (rc1 * (1 - rc1) * (1 / sc) + rt1 * (1 - rt1) * (1 / st)) :=
    Real.sqrt_pos.mpr hv1
  have hs2 : 0 < Real.sqrt (rc2 * (1 - rc2) * (1 / sc) + rt2 * (1 - rt2) * (1 / st)) :=
    Real.sqrt_pos.mpr hv2
  have hsLe : Real.sqrt (rc2 * (1 - rc2) * (1 / sc) + rt2 * (1 - rt2) * (1 / st)) ≤
      Real.sqrt (rc1 * (1 - rc1) * (1 / sc) + rt1 * (1 - rt1) * (1 / st)) := by
    rw [standard_error_eq, standard_error_eq] at hseLe
    exact hseLe
  refine ⟨2 * stdNormalCdf (-|rt1 - rc1| /
      Real.sqrt (rc1 * (1 - rc1) * (1 / sc) + rt1 * (1 - rt1) * (1 / st))),
    2 * stdNormalCdf (-|rt2 - rc2| /
      Real.sqrt (rc2 * (1 - rc2) * (1 / sc) + rt2 * (1 - rt2) * (1 / st))), ?_, ?_, ?_⟩
  · rw [get_pvalue_run rc1 rt1 sc st hsc.ne' hst.ne' hv1]
    rfl
  · rw [get_pvalue_run rc2 rt2 sc st hsc.ne' hst.ne' hv2]
    rfl
  · have hz : -|rt2 - rc2| /
        Real.sqrt (rc2 * (1 - rc2) * (1 / sc) + rt2 * (1 - rt2) * (1 / st)) ≤
        -|rt1 - rc1| /
        Real.sqrt (rc1 * (1 - rc1) * (1 / sc) + rt1 * (1 - rt1) * (1 / st)) := by
      rw [neg_div, neg_div, neg_le_neg_iff]
      calc |rt1 - rc1| /
            Real.sqrt (rc1 * (1 - rc1) * (1 / sc) + rt1 * (1 - rt1) * (1 / st)) ≤
          |rt2 - rc2| /
            Real.sqrt (rc1 * (1 - rc1) * (1 / sc) + rt1 * (1 - rt1) * (1 / st)) :=
            (div_le_div_iff_of_pos_right hs1).mpr hdelta.le
        _ ≤ |rt2 - rc2| /
            Real.sqrt (rc2 * (1 - rc2) * (1 / sc) + rt2 * (1 - rt2) * (1 / st)) :=
            div_le_div_of_nonneg_left (abs_nonneg _) hs2 hsLe
    have := stdNormalCdf_mono hz
    linarith

/-- Witness for the amended C7: (0.5, 0.6) versus (0.5, 0.7), sizes 1. -/
theorem claim_C7_witness :
    ∃ p1 p2, pvalue_fst (get_pvalue 0.5 0.6 1 1) = some p1 ∧
      pvalue_fst (get_pvalue 0.5 0.7 1 1) = some p2 ∧ p2 ≤ p1 :=
  claim_C7_monotone 0.5 0.6 0.5 0.7 1 1 (by norm_num) (by norm_num)
    (by rw [standard_error_eq]; exact Real.sqrt_ne_zero'.mpr (by norm_num))
    (by rw [standard_error_eq]; exact Real.sqrt_ne_zero'.mpr (by norm_num))
    (by rw [standard_error_eq, standard_error_eq]; exact Real.sqrt_le_sqrt (by norm_num))
    (by rw [show (0.6 : ℝ) - 0.5 = 0.1 by norm_num, show (0.7 : ℝ) - 0.5 = 0.2 by norm_num,
        abs_of_nonneg (by norm_num : (0 : ℝ) ≤ 0.1),
        abs_of_nonneg (by norm_num : (0 : ℝ) ≤ 0.2)]; norm_num)

/-! ### The validation cell: `(df["converted"].unique() == [0, 1]).all()` -/

/-- Helper for `unique`: first-appearance deduplication, carrying the
values already seen. -/
def uniqueAux {α : Type} [DecidableEq α] (seen : List α) : List α → List α
  | [] => []
  | x :: xs => if x ∈ seen then uniqueAux seen xs else x :: uniqueAux (x :: seen) xs

/-- Model of pandas `Series.unique()`: the distinct values of the column
in order of first appearance. -/
def unique {α : Type} [DecidableEq α] (xs : List α) : List α :=
  uniqueAux [] xs

/-- Embedding of the validation-cell check
`(df["converted"].unique() == [0, 1]).all()`: elementwise comparison of
equal-length arrays is list equality, and with the NumPy of the
notebook era a length mismatch makes the comparison the scalar False. -/
def convertedCheck (xs : List ℤ) : Bool :=
  decide (unique xs = [0, 1])

theorem mem_uniqueAux {α : Type} [DecidableEq α] (a : α) :
    ∀ (xs seen : List α), a ∈ uniqueAux seen xs ↔ a ∈ xs ∧ a ∉ seen := by
  intro xs
  induction xs with
  | nil =>
    intro seen
    simp [uniqueAux]
  | cons x t ih =>
    intro seen
    by_cases hx : x ∈ seen
    · rw [uniqueAux, if_pos hx, ih seen]
      constructor
      · rintro ⟨hat, hn⟩
        exact ⟨List.mem_cons_of_mem _ hat, hn⟩
      · rintro ⟨hmem, hn⟩
        rcases List.mem_cons.mp hmem with rfl | hat
        · exact absurd hx hn
        · exact ⟨hat, hn⟩
    · rw [uniqueAux, if_neg hx, List.mem_cons, ih (x :: seen)]
      constructor
      · rintro (rfl | ⟨hat, hn⟩)
        · exact ⟨List.mem_cons_self _ _, hx⟩
        · exact ⟨List.mem_cons_of_mem _ hat, fun h => hn (List.mem_cons_of_mem _ h)⟩
      · rintro ⟨hmem, hn⟩
        rcases List.mem_cons.mp hmem with rfl | hat
        · exact Or.inl rfl
        · by_cases hax : a = x
          · exact Or.inl hax
          · refine Or.inr ⟨hat, fun h => ?_⟩
            rcases List.mem_cons.mp h with h' | h'
            · exact hax h'
            · exact hn h'

theorem uniqueAux_eq_nil {α : Type} [DecidableEq α] :
    ∀ (xs seen : List α), (∀ v ∈ xs, v ∈ seen) → uniqueAux seen xs = [] := by
  intro xs
  induction xs with
  | nil =>
    intro seen _
    rfl
  | cons x t ih =>
    intro seen h
    rw [uniqueAux, if_pos (h x (List.mem_cons_self x t))]
    exact ih seen fun v hv => h v (List.mem_cons_of_mem _ hv)

theorem uniqueAux_zero_one :
    ∀ t : List ℤ, (1 : ℤ) ∈ t → (∀ v ∈ t, v = 0 ∨ v = 1) →
      uniqueAux [0] t = [1] := by
  intro t
  induction t with
  | nil =>
    intro h
    cases h
  | cons v r ih =>
    intro h1 hall
    rcases hall v (List.mem_cons_self v r) with rfl | rfl
    · rw [uniqueAux, if_pos (by simp)]
      refine ih ?_ fun w hw => hall w (List.mem_cons_of_mem _ hw)
      rcases List.mem_cons.mp h1 with h | h
      · exact absurd h (by norm_num)
      · exact h
    · rw [uniqueAux, if_neg (by simp)]
      rw [uniqueAux_eq_nil r [1, 0] fun w hw => ?_]
      rcases hall w (List.mem_cons_of_mem _ hw) with rfl | rfl
      · simp
      · simp

/-- C8 counterexample: the column [1, 0] contains only the boolean-coded
values 0 and 1, yet the check rejects it: `unique()` returns values in
first-appearance order, so the elementwise comparison of [1, 0] with
[0, 1] is False — the check is not order-insensitive. -/
theorem claim_C8_counterexample :
    (∀ v ∈ ([1, 0] : List ℤ), v = 0 ∨ v = 1) ∧ convertedCheck [1, 0] = false := by
  decide

/-- C8 (amended): the outcome-coding check accepts exactly when the
column contains only the values 0 and 1, contains both, and its first
entry is 0 (so the first appearance of 0 precedes that of 1). -/
theorem claim_C8_check_iff (xs : List ℤ) :
    convertedCheck xs = true ↔
      xs.head? = some 0 ∧ (1 : ℤ) ∈ xs ∧ ∀ v ∈ xs, v = 0 ∨ v = 1 := by
  rw [convertedCheck, decide_eq_true_iff]
  constructor
  · intro h
    cases xs with
    | nil => simp [unique, uniqueAux] at h
    | cons x t =>
      rw [unique, uniqueAux, if_neg (List.not_mem_nil x)] at h
      have hx : x = 0 := (List.cons_eq_cons.mp h).1
      subst hx
      have ht : uniqueAux [0] t = [1] := (List.cons_eq_cons.mp h).2
      refine ⟨rfl, ?_, ?_⟩
      · have h1 : (1 : ℤ) ∈ uniqueAux [0] t := by
          rw [ht]
          exact List.mem_singleton.mpr rfl
        exact List.mem_cons_of_mem _ ((mem_uniqueAux 1 t [0]).mp h1).1
      · intro v hv
        rcases List.mem_cons.mp hv with rfl | hvt
        · exact Or.inl rfl
        · by_cases hv0 : v = 0
          · exact Or.inl hv0
          · have hmem : v ∈ uniqueAux [0] t :=
              (mem_uniqueAux v t [0]).mpr ⟨hvt, by simp [hv0]⟩
            rw [ht] at hmem
            exact Or.inr (List.mem_singleton.mp hmem)
  · rintro ⟨hhead, h1, hall⟩
    cases xs with
    | nil => simp at hhead
    | cons x t =>
      have hx : x = 0 := by simpa using hhead
      subst hx
      rw [unique, uniqueAux, if_neg (List.not_mem_nil 0)]
      have h1t : (1 : ℤ) ∈ t := by
        rcases List.mem_cons.mp h1 with h | h
        · exact absurd h (by norm_num)
        · exact h
      rw [uniqueAux_zero_one t h1t fun v hv => hall v (List.mem_cons_of_mem _ hv)]

/-! ### The group extraction cell

    a,b = df.group.unique()
    a_size = df['group'].value_counts()[0]
    b_size = df['group'].value_counts()[1]
    cr = df.groupby(by=['group'], as_index=False).agg({'converted': ['count', 'sum']})
    cr['conv'] = (cr.converted['sum'] / cr.converted['count'])
    a_conv = cr[cr.group == a].conv[0]
    b_conv = cr[cr.group == b].conv[1]

A dataset row is modelled as (group label, converted value). -/

/-- Model of `df.group.unique()` applied to the label column. -/
def groupLabels (rows : List (String × ℕ)) : List String :=
  unique (rows.map Prod.fst)

/-- Number of rows carrying a given group label. -/
def countLabel (rows : List (String × ℕ)) (l : String) : ℕ :=
  (rows.filter fun r => decide (r.1 = l)).length

/-- Sum of the converted column over the rows with a given label. -/
def sumConv (rows : List (String × ℕ)) (l : String) : ℕ :=
  ((rows.filter fun r => decide (r.1 = l)).map Prod.snd).sum

/-- Conversion rate of a group, as computed by the groupby aggregation
`sum / count`. -/
noncomputable def convRate (rows : List (String × ℕ)) (l : String) : ℝ :=
  (sumConv rows l : ℝ) / (countLabel rows l : ℝ)

/-- Stable insertion for the descending-by-count sort of `value_counts`:
a new entry goes before the first entry whose count is not larger, so
entries with equal counts keep their first-appearance order. -/
def insertCount (p : String × ℕ) : List (String × ℕ) → List (String × ℕ)
  | [] => [p]
  | q :: t => if q.2 ≤ p.2 then p :: q :: t else q :: insertCount p t

/-- Stable sort by count, descending. -/
def sortCounts : List (String × ℕ) → List (String × ℕ)
  | [] => []
  | p :: t => insertCount p (sortCounts t)

/-- Model of `df['group'].value_counts()`: label/count pairs sorted by
count descending (ties in first-appearance order).  The source indexes
this Series with integer keys 0 and 1; since the index consists of the
string labels, those lookups fall back to positional access. -/
def value_counts (rows : List (String × ℕ)) : List (String × ℕ) :=
  sortCounts ((groupLabels rows).map fun l => (l, countLabel rows l))

/-- Insertion for the ascending lexicographic label sort of `groupby`. -/
def insertLabel (x : String) : List String → List String
  | [] => [x]
  | y :: t => if x < y then x :: y :: t else y :: insertLabel x t

/-- Ascending label sort (pandas `groupby` sorts its keys). -/
def sortLabels : List String → List String
  | [] => []
  | x :: t => insertLabel x (sortLabels t)

/-- Model of the aggregated frame `cr` built by
`groupby(by=['group'], as_index=False)`: one row per label in ascending
label order, carrying its positional index (a RangeIndex 0..n-1), the
label, and the conversion rate. -/
noncomputable def crRows (rows : List (String × ℕ)) : List (ℕ × String × ℝ) :=
  (sortLabels (groupLabels rows)).enum.map fun p => (p.1, p.2, convRate rows p.2)

/-- Model of `cr[cr.group == lbl].conv[idx]`: boolean filtering keeps the
original integer index labels, and indexing the filtered column with an
integer key is a label lookup into that preserved index — a missing key
raises KeyError. -/
noncomputable def convLookup (rows : List (String × ℕ)) (lbl : String) (idx : ℕ) :
    Except PyErr ℝ :=
  match ((crRows rows).filter fun r => decide (r.2.1 = lbl)).find?
      (fun r => decide (r.1 = idx)) with
  | some r => .ok r.2.2
  | none => .error .keyError

/-- Embedding of the whole extraction cell: unpacking the two labels
(a ValueError if there are not exactly two), the two positional
value_counts lookups, and the two label-based conv lookups, yielding the
argument tuple (a_conv, b_conv, a_size, b_size) passed to get_pvalue. -/
noncomputable def extractArgs (rows : List (String × ℕ)) :
    Except PyErr (ℝ × ℝ × ℕ × ℕ) :=
  match groupLabels rows with
  | [a, b] =>
    match (value_counts rows)[0]?, (value_counts rows)[1]? with
    | some pa, some pb => do
        let a_conv ← convLookup rows a 0
        let b_conv ← convLookup rows b 1
        return (a_conv, b_conv, pa.2, pb.2)
    | _, _ => .error .keyError
  | _ => .error .valueError

/-- C9 counterexample.  First: when the first-appearing label "B" is not
the alphabetically first, the lookup `cr[cr.group == a].conv[0]` hits a
frame whose only preserved index label is 1, so the extraction raises
KeyError.  Second: when the first-appearing, alphabetically first label
"A" is the less frequent one, value_counts puts "B" first and a_size
becomes 2 — the size of group "B" — while a_conv is the rate of group
"A", whose actual size is 1: the (rate, size) pairs mix the two groups. -/
theorem claim_C9_counterexample :
    extractArgs [("B", 0), ("A", 1)] = Except.error PyErr.keyError ∧
    extractArgs [("A", 0), ("B", 1), ("B", 0)] =
      Except.ok (convRate [("A", 0), ("B", 1), ("B", 0)] "A",
        convRate [("A", 0), ("B", 1), ("B", 0)] "B", 2, 1) ∧
    countLabel [("A", 0), ("B", 1), ("B", 0)] "A" = 1 := by
  refine ⟨?_, ?_, by decide⟩
  · simp [extractArgs, groupLabels, unique, uniqueAux, value_counts, sortCounts,
      insertCount, countLabel, sortLabels, insertLabel, crRows, convLookup,
      List.enum, List.enumFrom, List.filter, List.find?]
    rfl
  · simp [extractArgs, groupLabels, unique, uniqueAux, value_counts, sortCounts,
      insertCount, countLabel, sortLabels, insertLabel, crRows, convLookup,
      List.enum, List.enumFrom, List.filter, List.find?]
    rfl

/-- C9 (amended): the extraction pairs each rate with the size of the
same group — and does not raise — whenever the first-appearing label also
sorts first and is at least as frequent as the other label. -/
theorem claim_C9_extract_correct (rows : List (String × ℕ)) (a b : String)
    (hlab : groupLabels rows = [a, b]) (hord : a < b)
    (hfreq : countLabel rows b ≤ countLabel rows a) :
    extractArgs rows = Except.ok
      (convRate rows a, convRate rows b, countLabel rows a, countLabel rows b) := by
  have hab : a ≠ b := ne_of_lt hord
  have hba : b ≠ a := hab.symm
  have hvc : value_counts rows = [(a, countLabel rows a), (b, countLabel rows b)] := by
    rw [value_counts, hlab]
    simp only [List.map_cons, List.map_nil, sortCounts, insertCount]
    rw [if_pos hfreq]
  have hsort : sortLabels [a, b] = [a, b] := by
    simp only [sortLabels, insertLabel]
    rw [if_pos hord]
  have hcr : crRows rows = [(0, a, convRate rows a), (1, b, convRate rows b)] := by
    rw [crRows, hlab, hsort]
    simp [List.enum, List.enumFrom]
  have hla : convLookup rows a 0 = Except.ok (convRate rows a) := by
    rw [convLookup, hcr]
    simp [List.filter, List.find?, hba]
  have hlb : convLookup rows b 1 = Except.ok (convRate rows b) := by
    rw [convLookup, hcr]
    simp [List.filter, List.find?, hab]
  unfold extractArgs
  rw [hlab]
  simp only [List.getElem?_cons_zero, List.getElem?_cons_succ, hvc]
  rw [hla, hlb]
  rfl

/-- Witness for the amended C9 on the dataset [("A",1), ("B",0)]. -/
theorem claim_C9_witness :
    extractArgs [("A", 1), ("B", 0)] =
      Except.ok (convRate [("A", 1), ("B", 0)] "A", convRate [("A", 1), ("B", 0)] "B",
        countLabel [("A", 1), ("B", 0)] "A", countLabel [("A", 1), ("B", 0)] "B") :=
  claim_C9_extract_correct [("A", 1), ("B", 0)] "A" "B" (by decide)
    (by rw [String.lt_iff_toList_lt]; decide) (by decide)
